import Mathlib

/-!
Verification of the StackFlow message-delivery subsystem: a shallow embedding of
the scheduled-message store (src/server/storage.ts), the Slack client cache and
refresh logic (src/server/services/slack.ts), the delivery scheduler
(src/server/services/scheduler.ts) and the schedule/cancel routes
(src/server/routes.ts), with theorems about the message state machine, the
credential lifecycle and failure isolation.

Conventions: timestamps are epoch milliseconds as `Int`; nullable columns are
`Option`; a JS `Map` is an association list (`StrMap`); a thrown/rejected
promise is `Except.error` carrying the error message string; JS truthiness of
nullable strings/numbers is made explicit (`truthyStr`, `truthyInt`).
-/

namespace StackFlow

/-- Scheduled message record (table scheduledMessages in src/shared/schema.ts). -/
structure ScheduledMessage where
  id : String
  channel : String
  channelName : Option String
  content : String
  scheduledFor : Int
  timezone : String
  status : String
  teamId : String
  userId : String
  createdAt : Int
  sentAt : Option Int
  errorMessage : Option String
  deriving Repr, DecidableEq

/-- Slack credential record (table slackTokens in src/shared/schema.ts). -/
structure SlackToken where
  id : String
  accessToken : String
  refreshToken : Option String
  teamId : String
  teamName : String
  userId : String
  expiresAt : Option Int
  createdAt : Int
  updatedAt : Int
  deriving Repr, DecidableEq

/-- Slack channel record (table slackChannels in src/shared/schema.ts). -/
structure SlackChannel where
  id : String
  channelId : String
  name : String
  teamId : String
  isPrivate : Option Bool
  lastUsed : Option Int
  deriving Repr, DecidableEq

/-- JS truthiness of a nullable string: null/undefined and "" are falsy. -/
def truthyStr : Option String → Bool
  | none => false
  | some s => s != ""

/-- JS `x || d` for a nullable string `x` and a string default `d`. -/
def jsOrStr (x : Option String) (d : String) : String :=
  match x with
  | none => d
  | some s => if s == "" then d else s

/-- JS `x || null` for a nullable string (zod/drizzle nullable columns). -/
def jsOrNullStr (x : Option String) : Option String :=
  if truthyStr x then x else none

/-- JS truthiness of a nullable number: null/undefined and 0 are falsy. -/
def truthyInt : Option Int → Bool
  | none => false
  | some n => n != 0

/-- Association-list model of a JS `Map` with string keys, in insertion order. -/
abbrev StrMap (α : Type) := List (String × α)

/-- Map.get: the value at the key, if present. -/
def StrMap.get? {α : Type} : StrMap α → String → Option α
  | [], _ => none
  | p :: rest, k => if p.1 == k then some p.2 else StrMap.get? rest k

/-- Map.set: overwrite the first binding of the key in place, else append. -/
def StrMap.set {α : Type} : StrMap α → String → α → StrMap α
  | [], k, v => [(k, v)]
  | p :: rest, k, v => if p.1 == k then (k, v) :: rest else p :: StrMap.set rest k v

/-- Map.delete: remove every binding of the key. -/
def StrMap.del {α : Type} : StrMap α → String → StrMap α
  | [], _ => []
  | p :: rest, k => if p.1 == k then StrMap.del rest k else p :: StrMap.del rest k

/-- Map.has. -/
def StrMap.hasKey {α : Type} (m : StrMap α) (k : String) : Bool :=
  m.any (fun p => p.1 == k)

/-- Array.from(map.values()). -/
def StrMap.values {α : Type} (m : StrMap α) : List α :=
  m.map (fun p => p.2)

/-- The in-memory store (class MemStorage in src/server/storage.ts), restricted
to the tables the delivery core touches. -/
structure Storage where
  slackTokens : StrMap SlackToken
  scheduledMessages : StrMap ScheduledMessage
  slackChannels : StrMap SlackChannel
  deriving Repr, DecidableEq

/-- MemStorage.getTokenKey. -/
def getTokenKey (teamId userId : String) : String :=
  teamId ++ "-" ++ userId

/-- MemStorage.getSlackToken. -/
def getSlackToken (st : Storage) (teamId userId : String) : Option SlackToken :=
  StrMap.get? st.slackTokens (getTokenKey teamId userId)

/-- The fields of a `Partial SlackToken` the core ever passes to
updateSlackToken; an outer `none` means the field is absent from the partial. -/
structure SlackTokenUpdate where
  accessToken : Option String
  refreshToken : Option (Option String)
  expiresAt : Option (Option Int)
  deriving Repr, DecidableEq

/-- The object spread `{ ...existing, ...updates, updatedAt: new Date() }`. -/
def applyTokenUpdate (t : SlackToken) (u : SlackTokenUpdate) (now : Int) : SlackToken :=
  { t with
    accessToken := u.accessToken.getD t.accessToken
    refreshToken := u.refreshToken.getD t.refreshToken
    expiresAt := u.expiresAt.getD t.expiresAt
    updatedAt := now }

/-- MemStorage.updateSlackToken: returns the updated record (none when the key
is absent) and the store after the call. -/
def updateSlackToken (st : Storage) (teamId userId : String) (u : SlackTokenUpdate)
    (now : Int) : Option SlackToken × Storage :=
  match StrMap.get? st.slackTokens (getTokenKey teamId userId) with
  | none => (none, st)
  | some t =>
    let upd := applyTokenUpdate t u now
    (some upd,
     { st with slackTokens := StrMap.set st.slackTokens (getTokenKey teamId userId) upd })

/-- MemStorage.deleteSlackToken. -/
def deleteSlackToken (st : Storage) (teamId userId : String) : Bool × Storage :=
  (StrMap.hasKey st.slackTokens (getTokenKey teamId userId),
   { st with slackTokens := StrMap.del st.slackTokens (getTokenKey teamId userId) })

/-- MemStorage.getScheduledMessage. -/
def getScheduledMessage (st : Storage) (id : String) : Option ScheduledMessage :=
  StrMap.get? st.scheduledMessages id

/-- The fields of a `Partial ScheduledMessage` the core ever passes to
updateScheduledMessage. -/
structure MsgUpdate where
  status : Option String
  sentAt : Option (Option Int)
  errorMessage : Option (Option String)
  deriving Repr, DecidableEq

/-- The object spread `{ ...existing, ...updates }`. -/
def applyMsgUpdate (m : ScheduledMessage) (u : MsgUpdate) : ScheduledMessage :=
  { m with
    status := u.status.getD m.status
    sentAt := u.sentAt.getD m.sentAt
    errorMessage := u.errorMessage.getD m.errorMessage }

/-- MemStorage.updateScheduledMessage. -/
def updateScheduledMessage (st : Storage) (id : String) (u : MsgUpdate) :
    Option ScheduledMessage × Storage :=
  match StrMap.get? st.scheduledMessages id with
  | none => (none, st)
  | some m =>
    let upd := applyMsgUpdate m u
    (some upd,
     { st with scheduledMessages := StrMap.set st.scheduledMessages id upd })

/-- MemStorage.getPendingScheduledMessages: the due messages, i.e. status
`pending` and scheduledFor at or before now. -/
def getPendingScheduledMessages (st : Storage) (now : Int) : List ScheduledMessage :=
  (StrMap.values st.scheduledMessages).filter
    (fun m => m.status == "pending" && decide (m.scheduledFor ≤ now))

/-- Insert payload for a scheduled message (insertScheduledMessageSchema omits
id, createdAt and sentAt; status is omitted from the TYPE, but the runtime
object may still carry one, hence the Option field). -/
structure InsertScheduledMessage where
  channel : String
  channelName : Option String
  content : String
  scheduledFor : Int
  timezone : Option String
  status : Option String
  teamId : String
  userId : String
  deriving Repr, DecidableEq

/-- MemStorage.createScheduledMessage: `newId` stands for the generated
randomUUID and `now` for `new Date()`. -/
def createScheduledMessage (st : Storage) (newId : String) (now : Int)
    (ins : InsertScheduledMessage) : ScheduledMessage × Storage :=
  let m : ScheduledMessage :=
    { id := newId
      channel := ins.channel
      channelName := jsOrNullStr ins.channelName
      content := ins.content
      scheduledFor := ins.scheduledFor
      timezone := jsOrStr ins.timezone "UTC"
      status := jsOrStr ins.status "pending"
      teamId := ins.teamId
      userId := ins.userId
      createdAt := now
      sentAt := none
      errorMessage := none }
  (m, { st with scheduledMessages := StrMap.set st.scheduledMessages newId m })

/-- Helper for MemStorage.updateChannelLastUsed: the JS `find` returns the first
match, which is then mutated in place. -/
def setLastUsedFirst (now : Int) (channelId teamId : String) :
    StrMap SlackChannel → StrMap SlackChannel
  | [] => []
  | (k, c) :: rest =>
    if c.channelId == channelId && c.teamId == teamId then
      (k, { c with lastUsed := some now }) :: rest
    else (k, c) :: setLastUsedFirst now channelId teamId rest

/-- MemStorage.updateChannelLastUsed. -/
def updateChannelLastUsed (st : Storage) (channelId teamId : String) (now : Int) :
    Storage :=
  { st with slackChannels := setLastUsedFirst now channelId teamId st.slackChannels }

/-- A live authenticated client (WebClient) is determined by the token it was
constructed with. -/
structure Client where
  token : String
  deriving Repr, DecidableEq

/-- Outcome object of the remote oauth.v2.access call. -/
structure OauthResp where
  ok : Bool
  accessToken : Option String
  refreshTokenResp : Option String
  expiresIn : Option Int
  deriving Repr, DecidableEq

/-- Outcome object of the remote chat.postMessage call. -/
structure PostMessageResp where
  ok : Bool
  error : Option String
  ts : Option String
  deriving Repr, DecidableEq

/-- What one delivery can observe of the process environment and the remote
API: the OAuth app configuration from process.env, the outcome of the
oauth.v2.access refresh exchange, and the outcome of chat.postMessage.
`Except.error e` models the awaited call rejecting with message `e`. -/
structure Env where
  clientId : Option String
  clientSecret : Option String
  oauthAccess : Except String OauthResp
  postMessage : Except String PostMessageResp

/-- SlackService.getClientKey. -/
def getClientKey (teamId userId : String) : String :=
  teamId ++ "-" ++ userId

/-- SlackService.refreshToken: exchange the refresh token, persist the updated
credential (falling back to the old refresh token when the response carries
none) and evict the cached client for the key. Every `Except.error` is raised
before the store or the cache is touched, matching the source, where the only
mutations sit after the last fallible step. -/
def refreshTokenM (env : Env) (now : Int) (teamId userId refreshTok : String)
    (st : Storage) (clients : StrMap Client) : Except String (Storage × StrMap Client) :=
  if !truthyStr env.clientId || !truthyStr env.clientSecret then
    .error "Slack OAuth credentials not configured"
  else
    match env.oauthAccess with
    | .error e => .error e
    | .ok r =>
      if !r.ok || !truthyStr r.accessToken then .error "Failed to refresh token"
      else
        let newExpiresAt : Option Int :=
          if truthyInt r.expiresIn then some (now + r.expiresIn.getD 0 * 1000) else none
        let upd : SlackTokenUpdate :=
          { accessToken := some (r.accessToken.getD "")
            refreshToken := some (some (jsOrStr r.refreshTokenResp refreshTok))
            expiresAt := some newExpiresAt }
        let st2 := (updateSlackToken st teamId userId upd now).2
        .ok (st2, StrMap.del clients (getClientKey teamId userId))

/-- SlackService.getClient: resolve a cached or freshly built client for the
(teamId, userId) pair, refreshing an expired credential when possible. Returns
the client (or none) together with the store and cache after the call. -/
def getClient (env : Env) (now : Int) (teamId userId : String)
    (st : Storage) (clients : StrMap Client) :
    Option Client × Storage × StrMap Client :=
  let key := getClientKey teamId userId
  match StrMap.get? clients key with
  | some c => (some c, st, clients)
  | none =>
    match getSlackToken st teamId userId with
    | none => (none, st, clients)
    | some tok =>
      let expired :=
        match tok.expiresAt with
        | some e => decide (now > e)
        | none => false
      if expired then
        if truthyStr tok.refreshToken then
          match refreshTokenM env now teamId userId (tok.refreshToken.getD "") st clients with
          | .error _ => (none, st, clients)
          | .ok (st2, clients2) =>
            match getSlackToken st2 teamId userId with
            | none => (none, st2, clients2)
            | some updatedTok =>
              (some ⟨updatedTok.accessToken⟩, st2,
               StrMap.set clients2 key ⟨updatedTok.accessToken⟩)
        else (none, st, clients)
      else
        (some ⟨tok.accessToken⟩, st, StrMap.set clients key ⟨tok.accessToken⟩)

/-- SlackService.sendMessage: resolve the client and post. The first component
is the thrown error or the returned remote timestamp; the last counts the
chat.postMessage attempts actually made. -/
def sendMessage (env : Env) (now : Int) (teamId userId channel text : String)
    (st : Storage) (clients : StrMap Client) :
    Except String String × Storage × StrMap Client × Nat :=
  match getClient env now teamId userId st clients with
  | (none, st1, cl1) => (.error "Slack client not available", st1, cl1, 0)
  | (some _, st1, cl1) =>
    match env.postMessage with
    | .error e => (.error e, st1, cl1, 1)
    | .ok r =>
      if !r.ok then (.error (jsOrStr r.error "Failed to send message"), st1, cl1, 1)
      else (.ok (r.ts.getD ""), updateChannelLastUsed st1 channel teamId now, cl1, 1)

/-- Result of one SchedulerService.sendScheduledMessage invocation: the store
and cache after the call, the sequence of status values persisted for the
message (in write order) and the number of remote send attempts made. -/
structure DeliverResult where
  storage : Storage
  clients : StrMap Client
  statusWrites : List String
  sendAttempts : Nat
  deriving Repr

/-- SchedulerService.sendScheduledMessage: deliver one scheduled message.
Absent or non-pending messages return before any write; otherwise the message
is moved to `sending`, the remote send runs once, and the outcome is persisted
as `sent` (with sentAt = now) or `failed` (with the error message). -/
def sendScheduledMessage (env : Env) (now : Int) (messageId : String)
    (st : Storage) (clients : StrMap Client) : DeliverResult :=
  match getScheduledMessage st messageId with
  | none => ⟨st, clients, [], 0⟩
  | some m =>
    if m.status != "pending" then ⟨st, clients, [], 0⟩
    else
      let st1 := (updateScheduledMessage st messageId ⟨some "sending", none, none⟩).2
      match sendMessage env now m.teamId m.userId m.channel m.content st1 clients with
      | (.ok _, st2, cl2, att) =>
        ⟨(updateScheduledMessage st2 messageId ⟨some "sent", some (some now), none⟩).2,
         cl2, ["sending", "sent"], att⟩
      | (.error e, st2, cl2, att) =>
        ⟨(updateScheduledMessage st2 messageId ⟨some "failed", none, some (some e)⟩).2,
         cl2, ["sending", "failed"], att⟩

/-- The for-loop of SchedulerService.processPendingMessages over the due ids;
`envOf` gives the environment each delivery observes. -/
def processMessages (envOf : String → Env) (now : Int) (ids : List String)
    (st : Storage) (clients : StrMap Client) : Storage × StrMap Client :=
  match ids with
  | [] => (st, clients)
  | id :: rest =>
    let r := sendScheduledMessage (envOf id) now id st clients
    processMessages envOf now rest r.storage r.clients

/-- SchedulerService.processPendingMessages, with the store never failing (the
behaviour of MemStorage). -/
def processPendingMessages (envOf : String → Env) (now : Int)
    (st : Storage) (clients : StrMap Client) : Storage × StrMap Client :=
  processMessages envOf now ((getPendingScheduledMessages st now).map (fun m => m.id))
    st clients

/-- SchedulerService timer state: `intervalId` is the live setInterval handle
if the loop runs; `timersCreated` counts the setInterval calls made, so a fresh
handle is the next count. -/
structure SchedulerState where
  intervalId : Option Nat
  timersCreated : Nat
  deriving Repr, DecidableEq

/-- SchedulerService.start: a no-op when a timer handle already exists. -/
def SchedulerService.start (s : SchedulerState) : SchedulerState :=
  if s.intervalId.isSome then s
  else { intervalId := some s.timersCreated, timersCreated := s.timersCreated + 1 }

/-- SchedulerService.stop: clear the timer when one exists, else do nothing. -/
def SchedulerService.stop (s : SchedulerState) : SchedulerState :=
  if s.intervalId.isSome then { s with intervalId := none } else s

/-- Which awaited store calls inside one sendScheduledMessage invocation
reject, modelling an IStorage implementation whose promises can fail
(MemStorage itself never rejects: `noFaults`). -/
structure StoreFaults where
  readFails : Bool
  updateSendingFails : Bool
  updateSentFails : Bool
  updateFailedFails : Bool
  deriving Repr, DecidableEq

/-- The fault pattern of MemStorage: no store call ever rejects. -/
def noFaults : StoreFaults :=
  ⟨false, false, false, false⟩

/-- sendScheduledMessage over a fallible store: the first component is
`some e` when the invocation throws `e` out to its caller (the message load
sits outside the try block; a send failure is caught and recorded as `failed`,
but the catch block's own store write may itself reject and propagate). -/
def sendScheduledMessageF (env : Env) (f : StoreFaults) (now : Int) (messageId : String)
    (st : Storage) (clients : StrMap Client) : Option String × Storage × StrMap Client :=
  if f.readFails then (some "store read failed", st, clients)
  else
    match getScheduledMessage st messageId with
    | none => (none, st, clients)
    | some m =>
      if m.status != "pending" then (none, st, clients)
      else
        let tryResult : Option String × Storage × StrMap Client :=
          if f.updateSendingFails then (some "store update failed", st, clients)
          else
            let st1 := (updateScheduledMessage st messageId ⟨some "sending", none, none⟩).2
            match sendMessage env now m.teamId m.userId m.channel m.content st1 clients with
            | (.ok _, st2, cl2, _) =>
              if f.updateSentFails then (some "store update failed", st2, cl2)
              else
                (none,
                 (updateScheduledMessage st2 messageId
                   ⟨some "sent", some (some now), none⟩).2, cl2)
            | (.error e, st2, cl2, _) => (some e, st2, cl2)
        match tryResult with
        | (none, st2, cl2) => (none, st2, cl2)
        | (some e, st2, cl2) =>
          if f.updateFailedFails then (some "store update failed", st2, cl2)
          else
            (none,
             (updateScheduledMessage st2 messageId
               ⟨some "failed", none, some (some e)⟩).2, cl2)

/-- The for-loop of processPendingMessages over a fallible store: an exception
thrown by one sendScheduledMessage invocation aborts the remaining iterations
(there is no per-iteration catch in the source). -/
def processMessagesF (envOf : String → Env) (faultsOf : String → StoreFaults) (now : Int)
    (ids : List String) (st : Storage) (clients : StrMap Client) :
    Option String × Storage × StrMap Client :=
  match ids with
  | [] => (none, st, clients)
  | id :: rest =>
    match sendScheduledMessageF (envOf id) (faultsOf id) now id st clients with
    | (some e, st2, cl2) => (some e, st2, cl2)
    | (none, st2, cl2) => processMessagesF envOf faultsOf now rest st2 cl2

/-- SchedulerService.processPendingMessages over a fallible store: the
surrounding try/catch only logs, so the tick itself always returns and the
interval loop keeps running. -/
def processPendingMessagesF (envOf : String → Env) (faultsOf : String → StoreFaults)
    (now : Int) (st : Storage) (clients : StrMap Client) : Storage × StrMap Client :=
  let r := processMessagesF envOf faultsOf now
    ((getPendingScheduledMessages st now).map (fun m => m.id)) st clients
  (r.2.1, r.2.2)

/-- Outcome of the cancel route, by HTTP response. -/
inductive CancelOutcome where
  | notFound
  | notAuthorized
  | notPending
  | success
  deriving Repr, DecidableEq

/-- DELETE /api/messages/scheduled/:teamId/:userId/:id (src/server/routes.ts):
cancel a scheduled message, only while it is still pending and owned by the
caller. -/
def cancelScheduledMessage (teamId userId id : String) (st : Storage) :
    CancelOutcome × Storage :=
  match getScheduledMessage st id with
  | none => (.notFound, st)
  | some m =>
    if m.teamId != teamId || m.userId != userId then (.notAuthorized, st)
    else if m.status != "pending" then (.notPending, st)
    else (.success, (updateScheduledMessage st id ⟨some "cancelled", none, none⟩).2)

/-- Request body of POST /api/messages/schedule as the client sent it; the
client may even try to smuggle in a status. -/
structure ScheduleBody where
  channel : String
  channelName : Option String
  content : String
  scheduledFor : Int
  timezone : Option String
  status : Option String
  deriving Repr, DecidableEq

/-- insertScheduledMessageSchema.parse over body plus route params: the schema
omits status (the server controls it), so any client or route supplied status
key is stripped from the parsed insert. -/
def parseInsertScheduledMessage (body : ScheduleBody) (teamId userId : String) :
    InsertScheduledMessage :=
  { channel := body.channel
    channelName := body.channelName
    content := body.content
    scheduledFor := body.scheduledFor
    timezone := body.timezone
    status := none
    teamId := teamId
    userId := userId }

/-- POST /api/messages/schedule/:teamId/:userId (src/server/routes.ts):
reject a non-future scheduledFor, force status to pending (stripped again by
the insert schema) and create the record. -/
def scheduleMessageRoute (newId : String) (now : Int) (teamId userId : String)
    (body : ScheduleBody) (st : Storage) :
    Except String (ScheduledMessage × Storage) :=
  if body.scheduledFor ≤ now then .error "Scheduled time must be in the future"
  else .ok (createScheduledMessage st newId now
    (parseInsertScheduledMessage body teamId userId))

/-- The legal edges of the scheduled-message status machine. -/
def allowedEdge (a b : String) : Bool :=
  (a == "pending" && b == "sending") || (a == "sending" && b == "sent") ||
  (a == "sending" && b == "failed") || (a == "pending" && b == "cancelled")

/-- Every consecutive pair of a status history is a legal edge. -/
def chainOk : List String → Bool
  | [] => true
  | [_] => true
  | a :: b :: rest => allowedEdge a b && chainOk (b :: rest)

/-- Sample credential: valid (no expiry) token for (T1, U1). -/
def tokenA : SlackToken :=
  { id := "tok1", accessToken := "xoxb-old", refreshToken := some "refresh-1"
    teamId := "T1", teamName := "Team One", userId := "U1"
    expiresAt := none, createdAt := 0, updatedAt := 0 }

/-- Sample credential: expired at 50 with a refresh token, for (T1, U1). -/
def tokenExp : SlackToken :=
  { tokenA with expiresAt := some 50 }

/-- Sample pending message m1, due at 50. -/
def msgA : ScheduledMessage :=
  { id := "m1", channel := "C1", channelName := some "general", content := "hello"
    scheduledFor := 50, timezone := "UTC", status := "pending"
    teamId := "T1", userId := "U1", createdAt := 0, sentAt := none, errorMessage := none }

/-- Sample pending message m2, due at 50. -/
def msgB : ScheduledMessage :=
  { msgA with id := "m2", content := "world" }

/-- Sample message m3 that was already sent at 60. -/
def msgSent : ScheduledMessage :=
  { msgA with id := "m3", status := "sent", sentAt := some 60 }

/-- A successful oauth.v2.access response carrying a rotated token. -/
def oauthOkResp : OauthResp :=
  { ok := true, accessToken := some "xoxb-new", refreshTokenResp := some "refresh-2"
    expiresIn := some 3600 }

/-- Environment in which every remote call succeeds. -/
def envOk : Env :=
  { clientId := some "cid", clientSecret := some "cs"
    oauthAccess := .ok oauthOkResp
    postMessage := .ok { ok := true, error := none, ts := some "157.0" } }

/-- Environment in which chat.postMessage rejects. -/
def envFail : Env :=
  { envOk with postMessage := .error "channel_not_found" }

/-- Per-message environment: m1 sees a failing remote send, everyone else a
working one. -/
def envOfW : String → Env :=
  fun id => if id == "m1" then envFail else envOk

/-- Store with a valid credential and two due pending messages m1 and m2. -/
def stC4 : Storage :=
  { slackTokens := [("T1-U1", tokenA)]
    scheduledMessages := [("m1", msgA), ("m2", msgB)]
    slackChannels := [] }

/-- Store with a valid credential and the single pending message m1. -/
def stC2 : Storage :=
  { slackTokens := [("T1-U1", tokenA)]
    scheduledMessages := [("m1", msgA)]
    slackChannels := [] }

/-- Store with an expired-but-refreshable credential and no messages. -/
def stC3 : Storage :=
  { slackTokens := [("T1-U1", tokenExp)]
    scheduledMessages := []
    slackChannels := [] }

/-- Store holding only the already-sent message m3. -/
def stSent : Storage :=
  { slackTokens := []
    scheduledMessages := [("m3", msgSent)]
    slackChannels := [] }

/-- The empty store. -/
def stEmpty : Storage :=
  { slackTokens := [], scheduledMessages := [], slackChannels := [] }

/-- Store holding a credential under the colliding key "a-b-c". -/
def stAlias : Storage :=
  { slackTokens := [("a-b-c", tokenA)]
    scheduledMessages := []
    slackChannels := [] }

/-- Fault pattern: the store read for m1 rejects; every other call works. -/
def faultsC4 : String → StoreFaults :=
  fun id => if id == "m1" then ⟨true, false, false, false⟩ else noFaults

/-- Reading back the key just set yields the value set. -/
theorem StrMap.get_set_self {α : Type} (m : StrMap α) (k : String) (v : α) :
    StrMap.get? (StrMap.set m k v) k = some v := by
  induction m with
  | nil => simp [StrMap.set, StrMap.get?]
  | cons p rest ih =>
    by_cases h : p.1 == k
    · simp [StrMap.set, StrMap.get?, h]
    · simp [StrMap.set, StrMap.get?, h, ih]

/-- Setting one key does not change what another key reads. -/
theorem StrMap.get_set_ne {α : Type} (m : StrMap α) (k k' : String) (v : α)
    (h : k' ≠ k) : StrMap.get? (StrMap.set m k v) k' = StrMap.get? m k' := by
  induction m with
  | nil => simp [StrMap.set, StrMap.get?, beq_iff_eq, Ne.symm h]
  | cons p rest ih =>
    by_cases hp : p.1 == k
    · have : ¬(k == k') := by
        simp only [beq_iff_eq]
        exact Ne.symm h
      simp only [StrMap.set, hp, if_true, StrMap.get?, this, if_false]
      have hp' : p.1 = k := by simpa [beq_iff_eq] using hp
      have : ¬(p.1 == k') := by
        simp only [beq_iff_eq, hp']
        exact Ne.symm h
      simp [this]
    · simp only [StrMap.set, hp, if_false, StrMap.get?]
      by_cases hq : p.1 == k'
      · simp [hq]
      · simp [hq, ih]

/-- A deleted key reads back as absent. -/
theorem StrMap.get_del_self {α : Type} (m : StrMap α) (k : String) :
    StrMap.get? (StrMap.del m k) k = none := by
  induction m with
  | nil => simp [StrMap.del, StrMap.get?]
  | cons p rest ih =>
    by_cases h : p.1 == k
    · simp [StrMap.del, h, ih]
    · simp [StrMap.del, StrMap.get?, h, ih]

/-- updateSlackToken only touches the token table. -/
theorem updateSlackToken_scheduledMessages (st : Storage) (t u : String)
    (up : SlackTokenUpdate) (now : Int) :
    ((updateSlackToken st t u up now).2).scheduledMessages = st.scheduledMessages := by
  unfold updateSlackToken
  cases StrMap.get? st.slackTokens (getTokenKey t u) <;> simp

/-- A successful refresh only touches the token table and the client cache. -/
theorem refreshTokenM_scheduledMessages (env : Env) (now : Int) (t u rt : String)
    (st : Storage) (clients : StrMap Client) (st2 : Storage) (cl2 : StrMap Client)
    (h : refreshTokenM env now t u rt st clients = .ok (st2, cl2)) :
    st2.scheduledMessages = st.scheduledMessages := by
  unfold refreshTokenM at h
  split at h
  · exact absurd h (by simp)
  · split at h
    · exact absurd h (by simp)
    · split at h
      · exact absurd h (by simp)
      · rw [Except.ok.injEq, Prod.mk.injEq] at h
        rw [← h.1, updateSlackToken_scheduledMessages]

/-- Client resolution never touches the scheduled-message table. -/
theorem getClient_scheduledMessages (env : Env) (now : Int) (t u : String)
    (st : Storage) (clients : StrMap Client) :
    ((getClient env now t u st clients).2.1).scheduledMessages = st.scheduledMessages := by
  unfold getClient
  cases hc : StrMap.get? clients (getClientKey t u) with
  | some c => simp [hc]
  | none =>
    simp only [hc]
    cases ht : getSlackToken st t u with
    | none => simp [ht]
    | some tok =>
      simp only [ht]
      split
      · split
        · cases hr : refreshTokenM env now t u (tok.refreshToken.getD "") st clients with
          | error e => simp [hr]
          | ok pr =>
            obtain ⟨st2, cl2⟩ := pr
            have hframe := refreshTokenM_scheduledMessages env now t u
              (tok.refreshToken.getD "") st clients st2 cl2 hr
            simp only [hr]
            cases getSlackToken st2 t u with
            | none => simpa using hframe
            | some updatedTok => simpa using hframe
        · simp
      · simp

/-- updateChannelLastUsed only touches the channel table. -/
theorem updateChannelLastUsed_scheduledMessages (st : Storage) (ch t : String) (now : Int) :
    (updateChannelLastUsed st ch t now).scheduledMessages = st.scheduledMessages := rfl

/-- The remote send never touches the scheduled-message table. -/
theorem sendMessage_scheduledMessages (env : Env) (now : Int) (t u ch txt : String)
    (st : Storage) (clients : StrMap Client) :
    ((sendMessage env now t u ch txt st clients).2.1).scheduledMessages =
      st.scheduledMessages := by
  have hg := getClient_scheduledMessages env now t u st clients
  unfold sendMessage
  match hgc : getClient env now t u st clients with
  | (none, st1, cl1) =>
    rw [hgc] at hg
    simpa using hg
  | (some c, st1, cl1) =>
    rw [hgc] at hg
    cases hp : env.postMessage with
    | error e => simpa using hg
    | ok r =>
      by_cases hr : r.ok
      · simp only [hr, Bool.not_true, if_neg]
        simpa [updateChannelLastUsed_scheduledMessages] using hg
      · simp only [hr]
        simpa using hg

/-- At most one chat.postMessage attempt per sendMessage call. -/
theorem sendMessage_attempts_le_one (env : Env) (now : Int) (t u ch txt : String)
    (st : Storage) (clients : StrMap Client) :
    (sendMessage env now t u ch txt st clients).2.2.2 ≤ 1 := by
  unfold sendMessage
  match hgc : getClient env now t u st clients with
  | (none, st1, cl1) => simp
  | (some c, st1, cl1) =>
    cases hp : env.postMessage with
    | error e => simp
    | ok r => by_cases hr : r.ok <;> simp [hr]

/-- Updating an existing message reads back as the updated record. -/
theorem get_updateScheduledMessage_self (st : Storage) (id : String) (u : MsgUpdate)
    (m : ScheduledMessage) (h : getScheduledMessage st id = some m) :
    getScheduledMessage (updateScheduledMessage st id u).2 id =
      some (applyMsgUpdate m u) := by
  unfold getScheduledMessage at h ⊢
  unfold updateScheduledMessage
  rw [h]
  simp [StrMap.get_set_self]

/-- Updating an existing credential reads back as the updated record. -/
theorem get_updateSlackToken_self (st : Storage) (t u : String) (up : SlackTokenUpdate)
    (now : Int) (tok : SlackToken) (h : getSlackToken st t u = some tok) :
    getSlackToken (updateSlackToken st t u up now).2 t u =
      some (applyTokenUpdate tok up now) := by
  unfold getSlackToken at h ⊢
  unfold updateSlackToken
  rw [h]
  simp [StrMap.get_set_self]

/-- The value refreshTokenM computes when the OAuth app is configured and the
remote exchange returns ok with a truthy access token. -/
theorem refreshTokenM_success (env : Env) (now : Int) (t u rt : String)
    (st : Storage) (clients : StrMap Client) (r : OauthResp)
    (hcid : truthyStr env.clientId = true) (hcs : truthyStr env.clientSecret = true)
    (hoauth : env.oauthAccess = .ok r) (hok : r.ok = true)
    (hacc : truthyStr r.accessToken = true) :
    refreshTokenM env now t u rt st clients =
      .ok ((updateSlackToken st t u
          { accessToken := some (r.accessToken.getD "")
            refreshToken := some (some (jsOrStr r.refreshTokenResp rt))
            expiresAt := some (if truthyInt r.expiresIn then
              some (now + r.expiresIn.getD 0 * 1000) else none) } now).2,
        StrMap.del clients (getClientKey t u)) := by
  unfold refreshTokenM
  simp [hcid, hcs, hoauth, hok, hacc]

/-- Over a store that never rejects, the fallible delivery never throws and
agrees with the MemStorage delivery. -/
theorem sendScheduledMessageF_noFaults (env : Env) (now : Int) (id : String)
    (st : Storage) (clients : StrMap Client) :
    sendScheduledMessageF env noFaults now id st clients =
      (none, (sendScheduledMessage env now id st clients).storage,
        (sendScheduledMessage env now id st clients).clients) := by
  unfold sendScheduledMessageF sendScheduledMessage noFaults
  cases hm : getScheduledMessage st id with
  | none => simp [hm]
  | some m =>
    by_cases hs : (m.status != "pending") = true
    · simp [hm, hs]
    · simp only [hm, hs, Bool.false_eq_true, if_false, if_neg, Bool.not_eq_true]
      match hsend : sendMessage env now m.teamId m.userId m.channel m.content
          (updateScheduledMessage st id ⟨some "sending", none, none⟩).2 clients with
      | (.ok ts, st2, cl2, att) => simp [hsend]
      | (.error e, st2, cl2, att) => simp [hsend]

/-- Starting an already-running scheduler changes nothing. -/
theorem start_of_running (r : SchedulerState) (h : r.intervalId.isSome = true) :
    SchedulerService.start r = r := by
  simp [SchedulerService.start, h]

/-- Stopping an already-stopped scheduler changes nothing. -/
theorem stop_of_stopped (r : SchedulerState) (h : r.intervalId = none) :
    SchedulerService.stop r = r := by
  simp [SchedulerService.stop, h]

/-- JS `x || d` falls back to the default when x is falsy. -/
theorem jsOrStr_of_falsy (x : Option String) (d : String)
    (h : truthyStr x = false) : jsOrStr x d = d := by
  cases x with
  | none => rfl
  | some s =>
    have hs : s = "" := by simpa [truthyStr] using h
    simp [jsOrStr, hs]

/-- A truthy nullable string is some of its default-read. -/
theorem truthyStr_eq_some (x : Option String) (h : truthyStr x = true) :
    x = some (x.getD "") := by
  cases x with
  | none => simp [truthyStr] at h
  | some s => rfl

/-- C1: delivering a message whose record is absent or whose status is not
exactly pending is a complete no-op: the store and cache are returned
unchanged, no status is written and no send attempt is made — in particular a
second deliver on an already-sent message leaves sentAt unchanged; moreover
every status sequence deliver writes, and every transition cancel performs,
follows only the edges pending→sending, sending→sent, sending→failed,
pending→cancelled. -/
theorem deliver_nonpending_noop (env : Env) (now : Int) (id : String)
    (st : Storage) (clients : StrMap Client) :
    ((getScheduledMessage st id = none ∨
        (∃ m, getScheduledMessage st id = some m ∧ m.status ≠ "pending")) →
      sendScheduledMessage env now id st clients = ⟨st, clients, [], 0⟩) ∧
    (∀ m, getScheduledMessage st id = some m →
      chainOk (m.status ::
        (sendScheduledMessage env now id st clients).statusWrites) = true) ∧
    (∀ t u m, getScheduledMessage st id = some m →
      (cancelScheduledMessage t u id st).1 = CancelOutcome.success →
      allowedEdge m.status "cancelled" = true) := by
  refine ⟨?_, ?_, ?_⟩
  · rintro (hm | ⟨m, hm, hne⟩)
    · simp [sendScheduledMessage, hm]
    · have hb : (m.status != "pending") = true := by simpa [bne_iff_ne] using hne
      simp [sendScheduledMessage, hm, hb]
  · intro m hm
    by_cases hp : m.status = "pending"
    · have hb : (m.status != "pending") = false := by simp [hp]
      rcases hsend : sendMessage env now m.teamId m.userId m.channel m.content
          (updateScheduledMessage st id ⟨some "sending", none, none⟩).2 clients with
        ⟨res, st2, cl2, att⟩
      cases res with
      | ok ts =>
        simp only [sendScheduledMessage, hm, hb, Bool.false_eq_true, if_false, hsend]
        rw [hp]
        decide
      | error e =>
        simp only [sendScheduledMessage, hm, hb, Bool.false_eq_true, if_false, hsend]
        rw [hp]
        decide
    · have hb : (m.status != "pending") = true := by simpa [bne_iff_ne] using hp
      simp [sendScheduledMessage, hm, hb, chainOk]
  · intro t u m hm hsucc
    unfold cancelScheduledMessage at hsucc
    split at hsucc
    · exact CancelOutcome.noConfusion hsucc
    · rename_i m2 hm2
      rw [hm, Option.some.injEq] at hm2
      subst hm2
      by_cases hown : (m.teamId != t || m.userId != u) = true
      · rw [if_pos hown] at hsucc
        exact CancelOutcome.noConfusion hsucc
      · rw [if_neg hown] at hsucc
        by_cases hst : (m.status != "pending") = true
        · rw [if_pos hst] at hsucc
          exact CancelOutcome.noConfusion hsucc
        · have hpend : m.status = "pending" := by simpa using hst
          rw [hpend]
          decide

/-- C9: the credential store and the client cache key a (teamId, userId) pair
by the concatenation teamId ++ "-" ++ userId, so two distinct pairs whose
concatenations coincide address the same stored record and the same cache
entry in getSlackToken, updateSlackToken, deleteSlackToken and getClient. -/
theorem token_key_aliasing (t1 u1 t2 u2 : String)
    (hk : getTokenKey t1 u1 = getTokenKey t2 u2) :
    getClientKey t1 u1 = getClientKey t2 u2 ∧
    (∀ st : Storage, getSlackToken st t1 u1 = getSlackToken st t2 u2) ∧
    (∀ (st : Storage) (up : SlackTokenUpdate) (now : Int),
      updateSlackToken st t1 u1 up now = updateSlackToken st t2 u2 up now) ∧
    (∀ st : Storage, deleteSlackToken st t1 u1 = deleteSlackToken st t2 u2) ∧
    (∀ (env : Env) (now : Int) (st : Storage) (clients : StrMap Client),
      getClient env now t1 u1 st clients = getClient env now t2 u2 st clients) := by
  have hck : getClientKey t1 u1 = getClientKey t2 u2 := hk
  have hget : ∀ st : Storage, getSlackToken st t1 u1 = getSlackToken st t2 u2 := by
    intro st
    unfold getSlackToken
    rw [hk]
  have hupd : ∀ (st : Storage) (up : SlackTokenUpdate) (now : Int),
      updateSlackToken st t1 u1 up now = updateSlackToken st t2 u2 up now := by
    intro st up now
    unfold updateSlackToken
    rw [hk]
  have hrefresh : ∀ (env : Env) (now : Int) (rt : String) (st : Storage)
      (clients : StrMap Client),
      refreshTokenM env now t1 u1 rt st clients =
        refreshTokenM env now t2 u2 rt st clients := by
    intro env now rt st clients
    simp only [refreshTokenM, hck, hupd]
  have hdel : ∀ st : Storage, deleteSlackToken st t1 u1 = deleteSlackToken st t2 u2 := by
    intro st
    unfold deleteSlackToken
    rw [hk]
  refine ⟨hck, hget, hupd, hdel, ?_⟩
  intro env now st clients
  simp only [getClient, hck, hget, hrefresh]

/-- C6: getPendingScheduledMessages (listDue) returns exactly the stored
messages whose status is pending and whose scheduledFor is at or before now;
nothing with a future scheduledFor or another status is included, and every
due pending message is included. -/
theorem listDue_exactly_due_pending (st : Storage) (now : Int) (m : ScheduledMessage) :
    m ∈ getPendingScheduledMessages st now ↔
      m ∈ StrMap.values st.scheduledMessages ∧
        m.status = "pending" ∧ m.scheduledFor ≤ now := by
  simp [getPendingScheduledMessages, List.mem_filter, and_assoc]

/-- C8: scheduler start and stop are idempotent: starting a running loop and
stopping a stopped loop change nothing (in particular no second timer is
created), and after start the loop runs while after stop it does not. -/
theorem scheduler_start_stop_idempotent (s : SchedulerState) :
    SchedulerService.start (SchedulerService.start s) = SchedulerService.start s ∧
    SchedulerService.stop (SchedulerService.stop s) = SchedulerService.stop s ∧
    (s.intervalId.isSome = true → SchedulerService.start s = s) ∧
    (s.intervalId = none → SchedulerService.stop s = s) ∧
    (SchedulerService.start s).intervalId.isSome = true ∧
    (SchedulerService.stop s).intervalId = none := by
  have hrun : (SchedulerService.start s).intervalId.isSome = true := by
    by_cases h : s.intervalId.isSome <;> simp [SchedulerService.start, h]
  have hstopped : (SchedulerService.stop s).intervalId = none := by
    by_cases h : s.intervalId.isSome
    · simp [SchedulerService.stop, h]
    · simp only [SchedulerService.stop, h, if_neg, Bool.false_eq_true, if_false]
      exact Option.not_isSome_iff_eq_none.mp (by simpa using h)
  exact ⟨start_of_running _ hrun, stop_of_stopped _ hstopped,
    start_of_running s, stop_of_stopped s, hrun, hstopped⟩

/-- C10: every record produced by createScheduledMessage starts with
sentAt = null and errorMessage = null, with status pending whenever the insert
payload carries no status; and every message created through the schedule
route (which strips any client status) starts pending. -/
theorem created_message_starts_pending (st : Storage) (newId : String) (now : Int)
    (ins : InsertScheduledMessage) :
    (createScheduledMessage st newId now ins).1.sentAt = none ∧
    (createScheduledMessage st newId now ins).1.errorMessage = none ∧
    (ins.status = none → (createScheduledMessage st newId now ins).1.status = "pending") ∧
    (∀ (nid : String) (now2 : Int) (t u : String) (body : ScheduleBody) (st2 : Storage)
        (m : ScheduledMessage) (st3 : Storage),
      scheduleMessageRoute nid now2 t u body st2 = .ok (m, st3) →
      m.status = "pending" ∧ m.sentAt = none ∧ m.errorMessage = none) := by
  refine ⟨rfl, rfl, ?_, ?_⟩
  · intro h
    simp [createScheduledMessage, h, jsOrStr]
  · intro nid now2 t u body st2 m st3 h
    unfold scheduleMessageRoute at h
    split at h
    · exact absurd h (by simp)
    · rw [Except.ok.injEq, Prod.mk.injEq] at h
      rw [← h.1]
      simp [createScheduledMessage, parseInsertScheduledMessage, jsOrStr]

/-- C7: the cancel route succeeds (persisting status cancelled) only while the
message is exactly pending; for a message in status sending, sent, failed or
cancelled the request is rejected and the store is unchanged. -/
theorem cancel_only_pending (t u id : String) (st : Storage) :
    (∀ m, getScheduledMessage st id = some m →
      (m.status = "sending" ∨ m.status = "sent" ∨ m.status = "failed" ∨
        m.status = "cancelled") →
      (cancelScheduledMessage t u id st).1 ≠ CancelOutcome.success ∧
        (cancelScheduledMessage t u id st).2 = st) ∧
    ((cancelScheduledMessage t u id st).1 = CancelOutcome.success →
      ∃ m, getScheduledMessage st id = some m ∧ m.status = "pending" ∧
        (getScheduledMessage (cancelScheduledMessage t u id st).2 id).map
          (fun x => x.status) = some "cancelled") := by
  unfold cancelScheduledMessage
  split
  · rename_i hm
    refine ⟨fun m hmm => ?_, fun hsucc => CancelOutcome.noConfusion hsucc⟩
    rw [hm] at hmm
    exact absurd hmm (by simp)
  · rename_i m hm
    by_cases hown : (m.teamId != t || m.userId != u) = true
    · rw [if_pos hown]
      exact ⟨fun m' _ _ => ⟨fun h => CancelOutcome.noConfusion h, rfl⟩,
        fun hsucc => CancelOutcome.noConfusion hsucc⟩
    · rw [if_neg hown]
      by_cases hst : (m.status != "pending") = true
      · rw [if_pos hst]
        exact ⟨fun m' _ _ => ⟨fun h => CancelOutcome.noConfusion h, rfl⟩,
          fun hsucc => CancelOutcome.noConfusion hsucc⟩
      · have hpend : m.status = "pending" := by
          simpa using hst
        rw [if_neg hst]
        refine ⟨?_, ?_⟩
        · intro m' hm' hother
          rw [hm, Option.some.injEq] at hm'
          rw [← hm', hpend] at hother
          rcases hother with h | h | h | h <;> exact absurd h (by decide)
        · intro _
          refine ⟨m, hm, hpend, ?_⟩
          have hread := get_updateScheduledMessage_self st id
            ⟨some "cancelled", none, none⟩ m hm
          simp [hread, applyMsgUpdate]

/-- C2: delivering a pending message first persists status sending; then, if
the remote send succeeds, it persists sent with sentAt = now, and on any
failure — including an absent authenticated client — it persists failed with
the human-readable cause as errorMessage; at most one remote send attempt is
made in the invocation. -/
theorem deliver_pending_outcome (env : Env) (now : Int) (id : String)
    (st : Storage) (clients : StrMap Client) (m : ScheduledMessage)
    (hm : getScheduledMessage st id = some m) (hp : m.status = "pending") :
    (sendScheduledMessage env now id st clients).statusWrites.head? = some "sending" ∧
    (sendScheduledMessage env now id st clients).sendAttempts ≤ 1 ∧
    (getScheduledMessage (sendScheduledMessage env now id st clients).storage id).map
        (fun x => (x.status, x.sentAt, x.errorMessage)) =
      (match (sendMessage env now m.teamId m.userId m.channel m.content
          (updateScheduledMessage st id ⟨some "sending", none, none⟩).2 clients).1 with
        | .ok _ => some ("sent", some now, m.errorMessage)
        | .error e => some ("failed", m.sentAt, some e)) := by
  have hb : (m.status != "pending") = false := by simp [hp]
  have hmid : getScheduledMessage
        (updateScheduledMessage st id ⟨some "sending", none, none⟩).2 id =
      some (applyMsgUpdate m ⟨some "sending", none, none⟩) :=
    get_updateScheduledMessage_self st id _ m hm
  have hatt := sendMessage_attempts_le_one env now m.teamId m.userId m.channel m.content
    (updateScheduledMessage st id ⟨some "sending", none, none⟩).2 clients
  have hframe := sendMessage_scheduledMessages env now m.teamId m.userId m.channel
    m.content (updateScheduledMessage st id ⟨some "sending", none, none⟩).2 clients
  rcases hsend : sendMessage env now m.teamId m.userId m.channel m.content
      (updateScheduledMessage st id ⟨some "sending", none, none⟩).2 clients with
    ⟨res, st2, cl2, att⟩
  rw [hsend] at hatt hframe
  simp only at hatt hframe
  have hmid2 : getScheduledMessage st2 id =
      some (applyMsgUpdate m ⟨some "sending", none, none⟩) := by
    unfold getScheduledMessage at hmid ⊢
    rw [hframe]
    exact hmid
  cases res with
  | ok ts =>
    have hfin := get_updateScheduledMessage_self st2 id
      ⟨some "sent", some (some now), none⟩ _ hmid2
    refine ⟨?_, ?_, ?_⟩
    · simp [sendScheduledMessage, hm, hb, hsend]
    · simpa [sendScheduledMessage, hm, hb, hsend] using hatt
    · simp [sendScheduledMessage, hm, hb, hsend, hfin, applyMsgUpdate]
  | error e =>
    have hfin := get_updateScheduledMessage_self st2 id
      ⟨some "failed", none, some (some e)⟩ _ hmid2
    refine ⟨?_, ?_, ?_⟩
    · simp [sendScheduledMessage, hm, hb, hsend]
    · simpa [sendScheduledMessage, hm, hb, hsend] using hatt
    · simp [sendScheduledMessage, hm, hb, hsend, hfin, applyMsgUpdate]

/-- C5: whenever getClient cannot produce a client — the credential record is
absent, or it is expired with no usable refresh token, or the refresh attempt
throws — it returns null and the store (in particular the stored credential
record) and the cache are left completely unchanged by the call. -/
theorem getClient_failure_no_mutation (env : Env) (now : Int) (t u : String)
    (st : Storage) (clients : StrMap Client)
    (hcache : StrMap.get? clients (getClientKey t u) = none)
    (hfail : getSlackToken st t u = none ∨
      (∃ tok e, getSlackToken st t u = some tok ∧ tok.expiresAt = some e ∧ e < now ∧
        (truthyStr tok.refreshToken = false ∨
          ∃ err, refreshTokenM env now t u (tok.refreshToken.getD "") st clients =
            .error err))) :
    getClient env now t u st clients = (none, st, clients) := by
  rcases hfail with htok | ⟨tok, e, htok, hexpAt, hlt, hrest⟩
  · simp [getClient, hcache, htok]
  · have hdec : decide (e < now) = true := by simpa using hlt
    rcases hrest with hrt | ⟨err, herr⟩
    · simp [getClient, hcache, htok, hexpAt, hdec, hrt]
    · by_cases hrt : truthyStr tok.refreshToken = true
      · simp [getClient, hcache, htok, hexpAt, hdec, hrt, herr]
      · simp only [Bool.not_eq_true] at hrt
        simp [getClient, hcache, htok, hexpAt, hdec, hrt]

/-- C3: resolving a stored credential that is expired and carries a refresh
token (with no cached client for the key) refreshes it: getClient returns a
client built from the new access token, the persisted accessToken becomes the
new token and so differs from the pre-refresh value, a response without a
rotated refresh token leaves the stored refreshToken unchanged, and the
refresh evicts any cached client entry for the key. -/
theorem getClient_refreshes_expired (env : Env) (now : Int) (t u : String)
    (st : Storage) (clients : StrMap Client) (tok : SlackToken) (r : OauthResp)
    (newTok : String)
    (hcache : StrMap.get? clients (getClientKey t u) = none)
    (htok : getSlackToken st t u = some tok)
    (hexp : ∃ e, tok.expiresAt = some e ∧ e < now)
    (hrt : truthyStr tok.refreshToken = true)
    (hcid : truthyStr env.clientId = true)
    (hcs : truthyStr env.clientSecret = true)
    (hoauth : env.oauthAccess = .ok r)
    (hok : r.ok = true)
    (hnew : r.accessToken = some newTok)
    (hne : newTok ≠ "")
    (hdiff : newTok ≠ tok.accessToken) :
    (getClient env now t u st clients).1 = some ⟨newTok⟩ ∧
    (getSlackToken (getClient env now t u st clients).2.1 t u).map
        (fun x => x.accessToken) = some newTok ∧
    (getSlackToken (getClient env now t u st clients).2.1 t u).map
        (fun x => x.accessToken) ≠ some tok.accessToken ∧
    (truthyStr r.refreshTokenResp = false →
      (getSlackToken (getClient env now t u st clients).2.1 t u).map
        (fun x => x.refreshToken) = some tok.refreshToken) ∧
    (∀ (cache : StrMap Client) (stx : Storage) (clx : StrMap Client),
      refreshTokenM env now t u (tok.refreshToken.getD "") st cache = .ok (stx, clx) →
      StrMap.get? clx (getClientKey t u) = none) := by
  obtain ⟨e, hexpAt, hlt⟩ := hexp
  have hdec : decide (e < now) = true := by simpa using hlt
  have hacc : truthyStr r.accessToken = true := by
    rw [hnew]
    simpa [truthyStr] using hne
  have hgetD : r.accessToken.getD "" = newTok := by rw [hnew]; rfl
  have hrm := refreshTokenM_success env now t u (tok.refreshToken.getD "") st clients r
    hcid hcs hoauth hok hacc
  have hst2 := get_updateSlackToken_self st t u
    { accessToken := some (r.accessToken.getD "")
      refreshToken := some (some (jsOrStr r.refreshTokenResp (tok.refreshToken.getD "")))
      expiresAt := some (if truthyInt r.expiresIn then
        some (now + r.expiresIn.getD 0 * 1000) else none) } now tok htok
  rw [hgetD] at hrm hst2
  refine ⟨?_, ?_, ?_, ?_, ?_⟩
  · simp [getClient, hcache, htok, hexpAt, hdec, hrt, hrm, hst2, applyTokenUpdate]
  · simp [getClient, hcache, htok, hexpAt, hdec, hrt, hrm, hst2, applyTokenUpdate]
  · simp only [getClient, hcache, htok, hexpAt, hdec, hrt, hrm, hst2]
    simp [hst2, applyTokenUpdate, hdiff]
  · intro hfresh
    have hjs : jsOrStr r.refreshTokenResp (tok.refreshToken.getD "") =
        tok.refreshToken.getD "" := jsOrStr_of_falsy _ _ hfresh
    have hback : some (tok.refreshToken.getD "") = tok.refreshToken :=
      (truthyStr_eq_some tok.refreshToken hrt).symm
    rw [hjs] at hrm hst2
    rw [hback] at hrm hst2
    simp only [getClient, hcache, htok, hexpAt, hdec, hrt, hrm, hst2]
    simp [hst2, applyTokenUpdate]
  · intro cache stx clx h
    have hrm2 := refreshTokenM_success env now t u (tok.refreshToken.getD "") st cache r
      hcid hcs hoauth hok hacc
    rw [hrm2, Except.ok.injEq, Prod.mk.injEq] at h
    rw [← h.2]
    exact StrMap.get_del_self cache (getClientKey t u)

/-- C4 (amended): with a store that never rejects (as MemStorage), a failure of
the remote send for one message is caught inside that message's own delivery,
so the tick loop never aborts and processes every due id exactly as the
fault-free loop does. -/
theorem tick_isolates_send_failures (envOf : String → Env)
    (faultsOf : String → StoreFaults) (now : Int) (ids : List String)
    (st : Storage) (clients : StrMap Client)
    (hf : ∀ i, faultsOf i = noFaults) :
    (processMessagesF envOf faultsOf now ids st clients).1 = none ∧
    processMessagesF envOf faultsOf now ids st clients =
      (none, processMessages envOf now ids st clients) := by
  have key : ∀ (l : List String) (s : Storage) (c : StrMap Client),
      processMessagesF envOf faultsOf now l s c =
        (none, processMessages envOf now l s c) := by
    intro l
    induction l with
    | nil =>
      intro s c
      simp [processMessagesF, processMessages]
    | cons i rest ih =>
      intro s c
      simp only [processMessagesF, processMessages, hf i, sendScheduledMessageF_noFaults]
      exact ih _ _
  exact ⟨by rw [key], key ids st clients⟩

/-- C4 counterexample: the store stC4 holds two due pending messages m1 and m2;
delivering m2 alone in a working environment would mark it sent, yet when the
store read for m1 rejects during the tick, the tick aborts before reaching m2,
which stays pending and completely untouched — refuting the claim that a store
read/update failure affecting one message never prevents the processing of the
remaining due messages of the same tick. -/
theorem tick_store_fault_aborts_rest :
    ((getPendingScheduledMessages stC4 100).map (fun m => m.id) = ["m1", "m2"]) ∧
    ((getScheduledMessage (sendScheduledMessageF envOk noFaults 100 "m2" stC4 []).2.1
        "m2").map (fun m => m.status) = some "sent") ∧
    ((getScheduledMessage
        (processPendingMessagesF (fun _ => envOk) faultsC4 100 stC4 []).1 "m2").map
        (fun m => m.status) = some "pending") ∧
    getScheduledMessage (processPendingMessagesF (fun _ => envOk) faultsC4 100 stC4 []).1
        "m2" = getScheduledMessage stC4 "m2" := by
  decide

/-- C2 witness: delivering the pending message m1 in a working environment
writes sending first and ends sent with sentAt = 100 and no errorMessage. -/
theorem deliver_pending_outcome_witness :
    (sendScheduledMessage envOk 100 "m1" stC2 []).statusWrites.head? = some "sending" ∧
    (getScheduledMessage (sendScheduledMessage envOk 100 "m1" stC2 []).storage "m1").map
        (fun x => (x.status, x.sentAt, x.errorMessage)) =
      some ("sent", some 100, none) := by
  have h := deliver_pending_outcome envOk 100 "m1" stC2 [] msgA (by decide) rfl
  refine ⟨h.1, ?_⟩
  rw [h.2.2]
  decide

/-- C3 witness: resolving (T1, U1) whose stored credential expired at 50 with
refresh token refresh-1, at time 100, yields a client built from xoxb-new and
persists xoxb-new as the access token. -/
theorem getClient_refreshes_expired_witness :
    (getClient envOk 100 "T1" "U1" stC3 []).1 = some ⟨"xoxb-new"⟩ ∧
    (getSlackToken (getClient envOk 100 "T1" "U1" stC3 []).2.1 "T1" "U1").map
        (fun x => x.accessToken) = some "xoxb-new" := by
  have h := getClient_refreshes_expired envOk 100 "T1" "U1" stC3 [] tokenExp oauthOkResp
    "xoxb-new" rfl (by decide) ⟨50, rfl, by decide⟩ (by decide) (by decide) (by decide)
    rfl rfl rfl (by decide) (by decide)
  exact ⟨h.1, h.2.1⟩

/-- C5 witness: resolving a pair with no stored credential returns null and
leaves the store and cache untouched. -/
theorem getClient_failure_no_mutation_witness :
    getClient envOk 100 "T9" "U9" stEmpty [] = (none, stEmpty, []) :=
  getClient_failure_no_mutation envOk 100 "T9" "U9" stEmpty [] rfl (Or.inl rfl)

/-- C9 witness: the distinct pairs ("a", "b-c") and ("a-b", "c") read the same
stored credential record. -/
theorem token_key_aliasing_witness :
    getSlackToken stAlias "a" "b-c" = getSlackToken stAlias "a-b" "c" :=
  (token_key_aliasing "a" "b-c" "a-b" "c" rfl).2.1 stAlias

/-- C4 witness: over a never-failing store, a tick in which m1's remote send
rejects still runs to completion and equals the fault-free loop on both due
messages. -/
theorem tick_isolates_send_failures_witness :
    (processMessagesF envOfW (fun _ => noFaults) 100 ["m1", "m2"] stC4 []).1 = none ∧
    processMessagesF envOfW (fun _ => noFaults) 100 ["m1", "m2"] stC4 [] =
      (none, processMessages envOfW 100 ["m1", "m2"] stC4 []) :=
  tick_isolates_send_failures envOfW (fun _ => noFaults) 100 ["m1", "m2"] stC4 []
    (fun _ => rfl)

end StackFlow
